import Mathlib

/-!
Shallow embedding of the clinical document-analysis services of the
prior-authorization backend (ai-service and document-service), together with
proofs about the embedded operations.

Conventions used throughout:
* Python `str` values are embedded as `List Char` (`PyStr`), so that slicing
  by integer offsets (`s[:i]`, `s[i:]`) is `List.take` / `List.drop`.
* Confidence scores are embedded as rationals (`ℚ`).
* Wall-clock readings (`datetime.now()`) are passed in as an explicit `now`
  parameter; a single call is modelled as happening at one instant, so an
  elapsed-time computation inside one call evaluates to `0`.
* Python `dict` payloads with a fixed key set are embedded as structures whose
  fields are `Option`-valued when the source reads them with `.get`.
* Scanning loops that advance through a string are written with an explicit
  fuel argument equal to the string length, which bounds the number of scan
  steps; every step consumes at least one character, so the fuel never runs
  out on the initial call.
-/

namespace PadrugsV7

deriving instance DecidableEq for Except

/-! ### Python-style string primitives -/

abbrev PyStr := List Char

/-- Python regex `\w` (ASCII range, which covers all texts considered here). -/
def isWordChar (c : Char) : Bool := c.isAlphanum || c == '_'

/-- Python regex `\s` / `str.split()` whitespace (ASCII range). -/
def isSpaceChar (c : Char) : Bool :=
  c == ' ' || c == '\t' || c == '\n' || c == '\r' || c == '\x0b' || c == '\x0c'

/-- Python `str.strip()`. -/
def pyStrip (cs : PyStr) : PyStr :=
  ((cs.dropWhile isSpaceChar).reverse.dropWhile isSpaceChar).reverse

/-- Helper for `re.sub(r'\s+', ' ', text)`: the flag records whether the
previous character was whitespace (in which case further whitespace is
swallowed into the single substituted space). -/
def collapseWsAux : Bool → PyStr → PyStr
  | _, [] => []
  | prevSpace, c :: cs =>
    if isSpaceChar c then
      if prevSpace then collapseWsAux true cs else ' ' :: collapseWsAux true cs
    else c :: collapseWsAux false cs

/-- Python `re.sub(r'\s+', ' ', text)`. -/
def collapseWs (cs : PyStr) : PyStr := collapseWsAux false cs

/-- Helper for `str.split()` (split on whitespace runs, no empty words);
`acc` is the current word accumulated in reverse. -/
def splitWsAux : PyStr → PyStr → List PyStr
  | [], acc => if acc.isEmpty then [] else [acc.reverse]
  | c :: cs, acc =>
    if isSpaceChar c then
      if acc.isEmpty then splitWsAux cs [] else acc.reverse :: splitWsAux cs []
    else splitWsAux cs (c :: acc)

/-- Python `str.split()` with no separator argument. -/
def pySplitWs (cs : PyStr) : List PyStr := splitWsAux cs []

/-- Python `' '.join(words)`. -/
def joinSp (ws : List PyStr) : PyStr := List.intercalate [' '] ws

/-- Helper for `str.split('\n')` (keeps empty pieces). -/
def splitNlAux : PyStr → PyStr → List PyStr
  | [], acc => [acc.reverse]
  | c :: cs, acc =>
    if c == '\n' then acc.reverse :: splitNlAux cs [] else splitNlAux cs (c :: acc)

/-- Python `str.split('\n')`. -/
def splitNl (cs : PyStr) : List PyStr := splitNlAux cs []

/-! ### Document lifecycle model (document-service)

Embeds `src/backend/document-service/src/models/document.py` and the parts of
`src/backend/document-service/src/services/document_service.py` that the
lifecycle claims depend on. -/

/-- Processing-status enumeration.

Modelled from the spec: the enum itself lives in `shared/proto/document_pb2`,
which is not part of the source tree; the spec lists the states `PENDING`,
`PROCESSING`, `PROCESSED`/`COMPLETED`, `FAILED`, and the in-tree code refers
to both `ProcessingStatus.PROCESSED` (model layer) and
`ProcessingStatus.COMPLETED` (service layer) as members, so both are modelled
as (distinct) members. -/
inductive ProcessingStatus where
  | PENDING
  | PROCESSING
  | PROCESSED
  | COMPLETED
  | FAILED
deriving DecidableEq

/-- Extra audit information handed to `update_processing_status`
(read with `audit_info.get('user_id')` / `audit_info.get('reason')`). -/
structure AuditInfo where
  user_id : Option String
  reason : Option String
deriving DecidableEq

/-- One audit-trail entry. The source appends plain dicts whose key sets differ
per action; keys that a given action does not write are `none` here. -/
structure AuditEntry where
  timestamp : Nat
  action : String
  previous_status : Option ProcessingStatus := none
  new_status : Option ProcessingStatus := none
  user_id : Option String := none
  reason : Option String := none
  analysis_version : Option String := none
  confidence_score : Option ℚ := none
deriving DecidableEq

/-- AI-analysis payload (`analysis_results` dict). Fields the validators probe
with `field in analysis_results` are `Option`-valued; `none` means the key is
absent. -/
structure AiAnalysis where
  confidence_score : Option ℚ := none
  extracted_fields : Option (List (String × String)) := none
  analysis_version : Option String := none
  detected_conditions : Option (List String) := none
  relevant_criteria : Option (List String) := none
  analyzed_at : Option Nat := none
  validated_at : Option Nat := none
  validation_score : Option ℚ := none
  validator_version : Option String := none
deriving DecidableEq

/-- Validation metadata handed to `update_ai_analysis`
(read with `validation_info.get(...)`). -/
structure ValidationInfo where
  validation_score : Option ℚ := none
  validator_version : Option String := none
deriving DecidableEq

/-- The fields of the MongoDB `Document` model that the lifecycle operations
read or write. -/
structure Document where
  document_id : String
  authorization_id : String
  processing_status : ProcessingStatus
  ai_analysis : Option AiAnalysis
  created_at : Nat
  updated_at : Nat
  audit_trail : List AuditEntry
deriving DecidableEq

/-- Errors raised by the lifecycle operations. The source raises `ValueError`
with distinguishing messages; the constructors record which check fired. -/
inductive DocError where
  | invalidTransition
  | missingAnalysisFields
  | invalidConfidenceScore
deriving DecidableEq

namespace Document

/-- Embedding of `Document._is_valid_status_transition`: membership of the new
status in `allowed_transitions.get(self.processing_status, set())`. -/
def is_valid_status_transition (current new_status : ProcessingStatus) : Bool :=
  match current with
  | .PENDING => new_status == .PROCESSING
  | .PROCESSING => new_status == .PROCESSED || new_status == .FAILED
  | .PROCESSED => new_status == .PROCESSING
  | .FAILED => new_status == .PROCESSING
  | .COMPLETED => false

/-- Body of `Document.update_processing_status` up to its `except` clause: the
validation failure raises, and a successful run mutates the status, refreshes
`updated_at`, and appends one audit entry. The `previous_status` value is read
from `self.processing_status` after the assignment `self.processing_status =
status` has already happened, exactly as in the source. -/
def update_processing_status_raw (doc : Document) (status : ProcessingStatus)
    (audit_info : AuditInfo) (now : Nat) : Except DocError Document :=
  if ¬ is_valid_status_transition doc.processing_status status then
    .error .invalidTransition
  else
    let doc1 := { doc with processing_status := status, updated_at := now }
    let audit_entry : AuditEntry :=
      { timestamp := now
        action := "status_update"
        previous_status := some doc1.processing_status
        new_status := some status
        user_id := audit_info.user_id
        reason := audit_info.reason }
    .ok { doc1 with audit_trail := doc1.audit_trail ++ [audit_entry] }

/-- Embedding of `Document.update_processing_status`: the broad `except`
swallows the raised error, logs, and returns `False`, leaving the document
object as it was before the call. -/
def update_processing_status (doc : Document) (status : ProcessingStatus)
    (audit_info : AuditInfo) (now : Nat) : Document × Bool :=
  match update_processing_status_raw doc status audit_info now with
  | .ok doc1 => (doc1, true)
  | .error _ => (doc, false)

/-- Body of `Document.update_ai_analysis` up to its `except` clause: checks
that the three required keys are present, enriches the payload with
validation metadata, stores it, refreshes `updated_at` and appends the
`ai_analysis_update` audit entry. -/
def update_ai_analysis_raw (doc : Document) (analysis_results : AiAnalysis)
    (validation_info : ValidationInfo) (now : Nat) : Except DocError Document :=
  if ¬ (analysis_results.confidence_score.isSome
        && analysis_results.extracted_fields.isSome
        && analysis_results.analysis_version.isSome) then
    .error .missingAnalysisFields
  else
    let enriched := { analysis_results with
      validated_at := some now
      validation_score := validation_info.validation_score
      validator_version := validation_info.validator_version }
    let audit_entry : AuditEntry :=
      { timestamp := now
        action := "ai_analysis_update"
        analysis_version := enriched.analysis_version
        confidence_score := enriched.confidence_score }
    .ok { doc with
      ai_analysis := some enriched
      updated_at := now
      audit_trail := doc.audit_trail ++ [audit_entry] }

/-- Embedding of `Document.update_ai_analysis` (broad `except` returns
`False` and leaves the document unchanged). -/
def update_ai_analysis (doc : Document) (analysis_results : AiAnalysis)
    (validation_info : ValidationInfo) (now : Nat) : Document × Bool :=
  match update_ai_analysis_raw doc analysis_results validation_info now with
  | .ok doc1 => (doc1, true)
  | .error _ => (doc, false)

end Document

/-- Embedding of `DocumentService._validate_analysis_results`: requires the
three keys and a confidence score within `[0, 1]`, raising `ValueError`
otherwise. -/
def validate_analysis_results (analysis_results : AiAnalysis) :
    Except DocError Unit :=
  if ¬ (analysis_results.confidence_score.isSome
        && analysis_results.extracted_fields.isSome
        && analysis_results.analysis_version.isSome) then
    .error .missingAnalysisFields
  else if ¬ (analysis_results.confidence_score.any
        (fun q => decide ((0 : ℚ) ≤ q) && decide (q ≤ 1))) then
    .error .invalidConfidenceScore
  else
    .ok ()

/-- Embedding of `DocumentService.update_ai_analysis` on an already-fetched
document: validate, delegate to the model, and on model-level success attempt
the `COMPLETED` status advance (whose own failure is swallowed by
`update_processing_status`). A raised validation error propagates to the
caller with the stored document untouched. -/
def service_update_ai_analysis (doc : Document) (analysis_results : AiAnalysis)
    (validation_info : Option ValidationInfo) (now : Nat) :
    Document × Except DocError Bool :=
  match validate_analysis_results analysis_results with
  | .error e => (doc, .error e)
  | .ok _ =>
    let step := doc.update_ai_analysis analysis_results
      (validation_info.getD {}) now
    if step.2 then
      let advanced := step.1.update_processing_status .COMPLETED
        { user_id := some "system", reason := some "AI analysis completed" } now
      (advanced.1, .ok true)
    else
      (step.1, .ok false)

/-! ### Lifecycle theorems (claims C2, C9, C4) -/

/-- No state may transition to `COMPLETED`: `COMPLETED` appears in no
right-hand side of `allowed_transitions`. -/
theorem is_valid_to_COMPLETED_false (s : ProcessingStatus) :
    Document.is_valid_status_transition s .COMPLETED = false := by
  cases s <;> rfl

/-- C2: the status transition succeeds exactly on the five allowed pairs; any
other requested transition raises `InvalidTransitionError` inside the method
(surfaced as a `False` return) and leaves the document unchanged. -/
theorem status_transition_guard (doc : Document) (s : ProcessingStatus)
    (info : AuditInfo) (now : Nat) :
    ((doc.update_processing_status s info now).2 = true ↔
      (doc.processing_status, s) ∈
        ([(.PENDING, .PROCESSING), (.PROCESSING, .PROCESSED),
          (.PROCESSING, .FAILED), (.PROCESSED, .PROCESSING),
          (.FAILED, .PROCESSING)] : List (ProcessingStatus × ProcessingStatus)))
    ∧ (Document.update_processing_status_raw doc s info now =
        .error .invalidTransition ↔
      (doc.processing_status, s) ∉
        ([(.PENDING, .PROCESSING), (.PROCESSING, .PROCESSED),
          (.PROCESSING, .FAILED), (.PROCESSED, .PROCESSING),
          (.FAILED, .PROCESSING)] : List (ProcessingStatus × ProcessingStatus)))
    ∧ ((doc.update_processing_status s info now).2 = false →
        (doc.update_processing_status s info now).1 = doc) := by
  refine ⟨?_, ?_, ?_⟩ <;>
    cases h : doc.processing_status <;> cases s <;>
      simp [Document.update_processing_status, Document.update_processing_status_raw,
        Document.is_valid_status_transition, h]

/-- Witness for C2: a concrete `PENDING → PROCESSED` attempt is refused and
leaves the document unchanged. -/
theorem status_transition_guard_witness :
    (Document.update_processing_status
      { document_id := "d1", authorization_id := "a1",
        processing_status := .PENDING, ai_analysis := none,
        created_at := 0, updated_at := 0, audit_trail := [] }
      .PROCESSED { user_id := some "u1", reason := some "bad" } 5).1 =
    { document_id := "d1", authorization_id := "a1",
      processing_status := .PENDING, ai_analysis := none,
      created_at := 0, updated_at := 0, audit_trail := [] } :=
  (status_transition_guard
    { document_id := "d1", authorization_id := "a1",
      processing_status := .PENDING, ai_analysis := none,
      created_at := 0, updated_at := 0, audit_trail := [] }
    .PROCESSED { user_id := some "u1", reason := some "bad" } 5).2.2 (by decide)

/-- Concrete pending document used in the audit-entry evaluation. -/
def pendingDoc : Document :=
  { document_id := "doc-9", authorization_id := "auth-9",
    processing_status := .PENDING, ai_analysis := none,
    created_at := 0, updated_at := 0, audit_trail := [] }

/-- C9: evaluating `update_processing_status` on a `PENDING` document moving to
`PROCESSING` shows that the single appended audit entry records
`previous_status = PROCESSING` — the status after the transition — because the
source reads `self.processing_status` only after assigning the new status to
it; the status before the transition was `PENDING`, and the repository's own
test asserts `previous_status == ProcessingStatus.PENDING`. -/
theorem audit_previous_status_bug :
    pendingDoc.processing_status = .PENDING
    ∧ (pendingDoc.update_processing_status .PROCESSING
        { user_id := some "u1", reason := some "start" } 7).2 = true
    ∧ ((pendingDoc.update_processing_status .PROCESSING
        { user_id := some "u1", reason := some "start" } 7).1.audit_trail.map
          (fun e => (e.action, e.previous_status, e.new_status, e.timestamp))) =
        [("status_update", some .PROCESSING, some .PROCESSING, 7)]
    ∧ (pendingDoc.update_processing_status .PROCESSING
        { user_id := some "u1", reason := some "start" } 7).1.updated_at = 7 := by
  refine ⟨rfl, rfl, ?_, rfl⟩
  decide

/-- Attempting to advance any document to `COMPLETED` is refused by the status
state machine, and `update_processing_status` swallows the refusal. -/
theorem update_processing_status_to_COMPLETED (d : Document) (info : AuditInfo)
    (now : Nat) : d.update_processing_status .COMPLETED info now = (d, false) := by
  cases h : d.processing_status <;>
    simp [Document.update_processing_status, Document.update_processing_status_raw,
      Document.is_valid_status_transition, h]

/-- C4: the AI-analysis update stores the payload exactly when the three
required keys are present and the confidence score lies in `[0, 1]`; otherwise
it raises a validation error and leaves the document (its `ai_analysis` and
its audit trail) unmodified. -/
theorem ai_analysis_validation (doc : Document) (payload : AiAnalysis)
    (vinfo : Option ValidationInfo) (now : Nat) :
    ((payload.confidence_score.any
        (fun q => decide ((0 : ℚ) ≤ q) && decide (q ≤ 1))
      && payload.extracted_fields.isSome
      && payload.analysis_version.isSome) = false →
      (∃ e, (service_update_ai_analysis doc payload vinfo now).2 = .error e)
      ∧ (service_update_ai_analysis doc payload vinfo now).1 = doc)
    ∧ ((payload.confidence_score.any
        (fun q => decide ((0 : ℚ) ≤ q) && decide (q ≤ 1))
      && payload.extracted_fields.isSome
      && payload.analysis_version.isSome) = true →
      (service_update_ai_analysis doc payload vinfo now).2 = .ok true
      ∧ (service_update_ai_analysis doc payload vinfo now).1.ai_analysis =
          some { payload with
            validated_at := some now
            validation_score := (vinfo.getD {}).validation_score
            validator_version := (vinfo.getD {}).validator_version }) := by
  cases hc : payload.confidence_score with
  | none =>
    constructor
    · intro _
      exact ⟨⟨.missingAnalysisFields,
          by simp [service_update_ai_analysis, validate_analysis_results, hc]⟩,
        by simp [service_update_ai_analysis, validate_analysis_results, hc]⟩
    · intro hgood
      simp [Option.any] at hgood
  | some q =>
    cases he : payload.extracted_fields with
    | none =>
      constructor
      · intro _
        exact ⟨⟨.missingAnalysisFields,
            by simp [service_update_ai_analysis, validate_analysis_results, hc, he]⟩,
          by simp [service_update_ai_analysis, validate_analysis_results, hc, he]⟩
      · intro hgood
        simp at hgood
    | some ef =>
      cases hver : payload.analysis_version with
      | none =>
        constructor
        · intro _
          exact ⟨⟨.missingAnalysisFields,
              by simp [service_update_ai_analysis, validate_analysis_results,
                hc, he, hver]⟩,
            by simp [service_update_ai_analysis, validate_analysis_results,
              hc, he, hver]⟩
        · intro hgood
          simp at hgood
      | some ver =>
        by_cases hq : ((0 : ℚ) ≤ q ∧ q ≤ 1)
        · constructor
          · intro hbad
            simp [Option.any, hq.1, hq.2] at hbad
          · intro _
            have hval : validate_analysis_results payload = .ok () := by
              simp [validate_analysis_results, hc, he, hver, Option.any, hq.1, hq.2]
            have hstep : doc.update_ai_analysis payload (vinfo.getD {}) now =
                ({ doc with
                    ai_analysis := some { payload with
                      validated_at := some now
                      validation_score := (vinfo.getD {}).validation_score
                      validator_version := (vinfo.getD {}).validator_version }
                    updated_at := now
                    audit_trail := doc.audit_trail ++
                      [{ timestamp := now, action := "ai_analysis_update",
                         analysis_version := payload.analysis_version,
                         confidence_score := payload.confidence_score }] }, true) := by
              simp [Document.update_ai_analysis, Document.update_ai_analysis_raw,
                hc, he, hver]
            constructor
            · simp [service_update_ai_analysis, hval, hstep,
                update_processing_status_to_COMPLETED]
            · simp [service_update_ai_analysis, hval, hstep,
                update_processing_status_to_COMPLETED, hc, he, hver]
        · constructor
          · intro _
            have hfalse : (decide ((0 : ℚ) ≤ q) && decide (q ≤ 1)) = false := by
              rcases not_and_or.mp hq with h | h <;> simp [h]
            refine ⟨⟨.invalidConfidenceScore, ?_⟩, ?_⟩ <;>
              simp [service_update_ai_analysis, validate_analysis_results,
                hc, he, hver, Option.any, hfalse]
          · intro hgood
            have hfalse : (decide ((0 : ℚ) ≤ q) && decide (q ≤ 1)) = false := by
              rcases not_and_or.mp hq with h | h <;> simp [h]
            simp [Option.any, hfalse] at hgood

/-- Witness for C4: the spec's example payload with `confidence_score = 1.5`
(and the other two keys present) is rejected and the document is left
unmodified. -/
theorem ai_analysis_validation_witness :
    (service_update_ai_analysis pendingDoc
      { confidence_score := some (mkRat 3 2),
        extracted_fields := some [("diagnosis", "Hypertension")],
        analysis_version := some "1.0.0" } none 11).1 = pendingDoc :=
  ((ai_analysis_validation pendingDoc
    { confidence_score := some (mkRat 3 2),
      extracted_fields := some [("diagnosis", "Hypertension")],
      analysis_version := some "1.0.0" } none 11).1 (by decide)).2

/-! ### Text normalizer (ai-service `utils/text_processor.py`) -/

/-- The abbreviation dictionary `MEDICAL_ABBREVIATIONS`, in insertion order. -/
def MEDICAL_ABBREVIATIONS : List (String × String) :=
  [("pt", "patient"), ("dx", "diagnosis"), ("hx", "history"),
   ("rx", "prescription"), ("tx", "treatment"), ("sx", "symptoms"),
   ("bid", "twice daily"), ("tid", "three times daily"),
   ("qid", "four times daily"), ("prn", "as needed")]

/-- The segment-size boundary constant `MAX_SEGMENT_LENGTH`. -/
def MAX_SEGMENT_LENGTH : Nat := 8192

/-- The keys of `ENTITY_CATEGORIES`. -/
def ENTITY_CATEGORIES : List String :=
  ["medications", "diagnoses", "procedures", "lab_results", "vital_signs"]

/-- Characters kept by the sanitization `re.sub(r'[^\w\s\-.,;:()/\\]', '', text)`. -/
def sanitizeKeep (c : Char) : Bool :=
  isWordChar c || isSpaceChar c || c == '-' || c == '.' || c == ',' ||
    c == ';' || c == ':' || c == '(' || c == ')' || c == '/' || c == '\\'

/-- Per-word case rule of the text-processor `preprocess_clinical_text`: a word
is kept verbatim when its uppercased form is a key of the abbreviation
dictionary (the keys are lowercase, so this test can never succeed) or when it
contains a digit; otherwise it is lowercased. -/
def preserveCaseWord (word : PyStr) : PyStr :=
  if MEDICAL_ABBREVIATIONS.any (fun kv => kv.1.toList == word.map Char.toUpper)
      || word.any Char.isDigit then
    word
  else
    word.map Char.toLower

/-- Embedding of the text-processor `preprocess_clinical_text`: sanitize,
normalize whitespace (`re.sub(r'\s+', ' ', text.strip())`), split into words,
apply the case rule per word and re-join with single spaces. -/
def preprocess_clinical_text (text : PyStr) : PyStr :=
  let sanitized := text.filter sanitizeKeep
  let ws_normalized := collapseWs (pyStrip sanitized)
  let words := pySplitWs ws_normalized
  joinSp (words.map preserveCaseWord)

/-- Case-insensitive literal match of the pattern `pat` against the first
`pat.length` characters of `cs`. -/
def ciPrefixEq (pat cs : PyStr) : Bool :=
  (cs.take pat.length).map Char.toLower == pat.map Char.toLower

/-- One scanning pass of
`re.sub(r'\b' + re.escape(abbrev) + r'\b', full_form, text, flags=re.IGNORECASE)`.
`prev` is the character just before the scan position in the text being
scanned (`none` at the start). The abbreviations consist of word characters
only, so the leading `\b` holds exactly when `prev` is absent or not a word
character, and the trailing `\b` holds exactly when the character after the
matched span is absent or not a word character. After a replacement the scan
resumes after the matched span, as `re.sub` does. The fuel starts at the text
length; every step consumes at least one character, so it never reaches zero. -/
def substWordAux (pat full : PyStr) : Nat → Option Char → PyStr → PyStr
  | 0, _, cs => cs
  | _ + 1, _, [] => []
  | fuel + 1, prev, c :: cs =>
    let boundaryBefore : Bool := match prev with
      | none => true
      | some p => !isWordChar p
    let boundaryAfter : Bool := match (c :: cs).drop pat.length with
      | [] => true
      | d :: _ => !isWordChar d
    if boundaryBefore && ciPrefixEq pat (c :: cs) && boundaryAfter then
      full ++ substWordAux pat full fuel
        ((c :: cs).take pat.length).getLast? ((c :: cs).drop pat.length)
    else
      c :: substWordAux pat full fuel (some c) cs

/-- The word-boundary, case-insensitive abbreviation substitution. -/
def substWord (pat full cs : PyStr) : PyStr :=
  substWordAux pat full cs.length none cs

/-- One scanning pass of `re.sub(r'(\d+)\s*mg', r'\1 milligrams', text)` (and
its `ml` sibling): a greedy run of digits, a greedy run of whitespace, then
the two-letter unit. The unit starts with a letter, which is neither a digit
nor whitespace, so the greedy runs need no backtracking; when the unit does
not follow, the scan moves on by one character, as the regex engine does. The
fuel starts at the text length and every step consumes at least one
character. -/
def substUnitAux (u1 u2 : Char) (replacement : PyStr) : Nat → PyStr → PyStr
  | 0, cs => cs
  | _ + 1, [] => []
  | fuel + 1, c :: cs =>
    if c.isDigit then
      let ds := (c :: cs).takeWhile Char.isDigit
      let afterDigits := (c :: cs).dropWhile Char.isDigit
      let afterSpace := afterDigits.dropWhile isSpaceChar
      match afterSpace with
      | d1 :: d2 :: rest =>
        if d1 == u1 && d2 == u2 then
          ds ++ replacement ++ substUnitAux u1 u2 replacement fuel rest
        else c :: substUnitAux u1 u2 replacement fuel cs
      | _ => c :: substUnitAux u1 u2 replacement fuel cs
    else c :: substUnitAux u1 u2 replacement fuel cs

/-- The measurement substitution (`mg` / `ml`). -/
def substUnit (u1 u2 : Char) (replacement cs : PyStr) : PyStr :=
  substUnitAux u1 u2 replacement cs.length cs

/-- Embedding of `normalize_medical_terms`: expand the abbreviation dictionary
in insertion order, standardize the `mg` and `ml` measurements, then the final
word-validation loop (which keeps every word) re-joins the words with single
spaces (`' '.join(normalized_text.split())`). -/
def normalize_medical_terms (text : PyStr) : PyStr :=
  let expanded := MEDICAL_ABBREVIATIONS.foldl
    (fun acc kv => substWord kv.1.toList kv.2.toList acc) text
  let mg := substUnit 'm' 'g' " milligrams".toList expanded
  let ml := substUnit 'm' 'l' " milliliters".toList mg
  joinSp (pySplitWs ml)

/-- The segmentation loop of `TextProcessor.process_document`: accumulate
lines (with their newline) into `current_segment` while the next line still
fits under `MAX_SEGMENT_LENGTH`, otherwise flush the stripped accumulator and
start a fresh one from the line; a nonempty trailing accumulator is flushed at
the end. -/
def segmentLoop : List PyStr → PyStr → List PyStr
  | [], current_segment =>
    if current_segment.isEmpty then [] else [pyStrip current_segment]
  | line :: rest, current_segment =>
    if current_segment.length + line.length + 1 ≤ MAX_SEGMENT_LENGTH then
      segmentLoop rest (current_segment ++ line ++ ['\n'])
    else
      pyStrip current_segment :: segmentLoop rest (line ++ ['\n'])

/-- Result shape of `TextProcessor.process_document`; the `metrics` sub-dict
is flattened into `segment_count` and `total_length` (its remaining entry is
the wall-clock processing time). -/
structure ProcessedDoc where
  processed_text : PyStr
  segments : List PyStr
  entities : List (String × List String)
  segment_count : Nat
  total_length : Nat
  validation_status : String
deriving DecidableEq

/-- Error raised by `process_document` on empty input. -/
inductive ProcessingError where
  | emptyDocument
deriving DecidableEq

/-- Analysis-parameters dict, abstracted as a string-valued association list. -/
abbrev Params := List (String × String)

/-- Embedding of `TextProcessor.process_document`. The `processing_options`
argument is accepted (and defaulted) by the source but never read. -/
def process_document (document_text : PyStr) (_processing_options : Option Params) :
    Except ProcessingError ProcessedDoc :=
  if document_text.isEmpty then .error .emptyDocument
  else
    let preprocessed_text := preprocess_clinical_text document_text
    let normalized_text := normalize_medical_terms preprocessed_text
    let segments := segmentLoop (splitNl normalized_text) []
    .ok { processed_text := normalized_text
          segments := segments
          entities := ENTITY_CATEGORIES.map (fun c => (c, []))
          segment_count := segments.length
          total_length := normalized_text.length
          validation_status := "success" }

/-! ### Segmentation theorems (claim C8) -/

/-- Dropping a prefix never lengthens a list. -/
theorem length_dropWhile_le (p : Char → Bool) (l : PyStr) :
    (l.dropWhile p).length ≤ l.length := by
  induction l with
  | nil => simp [List.dropWhile]
  | cons c cs ih =>
    rw [List.dropWhile]
    split
    · exact ih.trans (by simp)
    · simp

/-- Stripping never lengthens a string. -/
theorem pyStrip_length_le (cs : PyStr) : (pyStrip cs).length ≤ cs.length := by
  unfold pyStrip
  calc ((cs.dropWhile isSpaceChar).reverse.dropWhile isSpaceChar).reverse.length
      = ((cs.dropWhile isSpaceChar).reverse.dropWhile isSpaceChar).length := by
        rw [List.length_reverse]
    _ ≤ (cs.dropWhile isSpaceChar).reverse.length := length_dropWhile_le ..
    _ = (cs.dropWhile isSpaceChar).length := by rw [List.length_reverse]
    _ ≤ cs.length := length_dropWhile_le ..

/-- Every chunk produced by the segmentation loop is bounded by
`MAX_SEGMENT_LENGTH`, or is the strip of a single input line, or is the strip
of the initial accumulator. -/
theorem segmentLoop_mem (lines : List PyStr) :
    ∀ cur seg, seg ∈ segmentLoop lines cur →
      seg.length ≤ MAX_SEGMENT_LENGTH
      ∨ (∃ l ∈ lines, seg = pyStrip (l ++ ['\n']))
      ∨ seg = pyStrip cur := by
  induction lines with
  | nil =>
    intro cur seg hseg
    unfold segmentLoop at hseg
    split at hseg
    · cases hseg
    · refine Or.inr (Or.inr ?_)
      simpa using hseg
  | cons line rest ih =>
    intro cur seg hseg
    unfold segmentLoop at hseg
    split at hseg
    · rename_i hfit
      rcases ih _ _ hseg with h | ⟨l, hl, rfl⟩ | rfl
      · exact Or.inl h
      · exact Or.inr (Or.inl ⟨l, by simp [hl]⟩)
      · refine Or.inl ?_
        calc (pyStrip (cur ++ line ++ ['\n'])).length
            ≤ (cur ++ line ++ ['\n']).length := pyStrip_length_le _
          _ = cur.length + line.length + 1 := by
              simp only [List.length_append, List.length_cons, List.length_nil]
          _ ≤ MAX_SEGMENT_LENGTH := hfit
    · rcases List.mem_cons.mp hseg with rfl | hseg1
      · exact Or.inr (Or.inr rfl)
      · rcases ih _ _ hseg1 with h | ⟨l, hl, rfl⟩ | rfl
        · exact Or.inl h
        · exact Or.inr (Or.inl ⟨l, by simp [hl]⟩)
        · exact Or.inr (Or.inl ⟨line, by simp⟩)

/-- The segmentation loop never returns an empty chunk list when it has input
lines or a pending accumulator. -/
theorem segmentLoop_ne_nil (lines : List PyStr) :
    ∀ cur, lines ≠ [] ∨ cur ≠ [] → segmentLoop lines cur ≠ [] := by
  induction lines with
  | nil =>
    intro cur h
    unfold segmentLoop
    rcases h with h | h
    · exact absurd rfl h
    · simp [List.isEmpty_iff, h]
  | cons line rest ih =>
    intro cur _
    unfold segmentLoop
    split
    · exact ih _ (Or.inr (by simp))
    · simp

/-- Splitting on newlines always yields at least one piece. -/
theorem splitNlAux_ne_nil (cs : PyStr) : ∀ acc, splitNlAux cs acc ≠ [] := by
  induction cs with
  | nil => intro acc; simp [splitNlAux]
  | cons c cs ih =>
    intro acc
    unfold splitNlAux
    split
    · simp
    · exact ih _

/-- C8 (amended): every chunk of a successfully processed document either
respects the `MAX_SEGMENT_LENGTH` bound or is a single (stripped) line of the
normalized text, and the chunk list is never empty — the trailing partial
chunk is always flushed. -/
theorem segmentation_bound_amended (text : PyStr) (opts : Option Params)
    (pd : ProcessedDoc) (h : process_document text opts = .ok pd) :
    pd.segments ≠ []
    ∧ ∀ seg ∈ pd.segments,
        seg.length ≤ MAX_SEGMENT_LENGTH
        ∨ ∃ l ∈ splitNl pd.processed_text, seg = pyStrip (l ++ ['\n']) := by
  simp only [process_document] at h
  split at h
  · cases h
  · rw [Except.ok.injEq] at h
    generalize hg : normalize_medical_terms (preprocess_clinical_text text) = nt at h
    subst h
    constructor
    · exact segmentLoop_ne_nil _ _ (Or.inl (splitNlAux_ne_nil _ _))
    · intro seg hseg
      rcases segmentLoop_mem _ _ _ hseg with h1 | h1 | rfl
      · exact Or.inl h1
      · exact Or.inr h1
      · exact Or.inl (by simp [pyStrip])

/-! ### Identity of the normalization pipeline on an all-digit text

These lemmas trace a text consisting of `n` copies of `'5'` through the
normalizer: no sanitization, whitespace, case, abbreviation or measurement
rule touches it, so it reaches the segmentation loop unchanged. -/

/-- Filtering keeps a replicated character that satisfies the predicate. -/
theorem filter_replicate_pos (p : Char → Bool) (c : Char) (h : p c = true)
    (n : Nat) : (List.replicate n c).filter p = List.replicate n c := by
  induction n with
  | zero => rfl
  | succ n ih => simp [List.replicate_succ, List.filter_cons, h, ih]

/-- Dropping leading whitespace does not touch a replicated non-space char. -/
theorem dropWhile_replicate_neg (p : Char → Bool) (c : Char) (h : p c = false)
    (n : Nat) : (List.replicate n c).dropWhile p = List.replicate n c := by
  cases n with
  | zero => rfl
  | succ n => simp [List.replicate_succ, List.dropWhile_cons, h]

theorem pyStrip_replicate5 (n : Nat) :
    pyStrip (List.replicate n '5') = List.replicate n '5' := by
  unfold pyStrip
  rw [dropWhile_replicate_neg isSpaceChar '5' (by decide),
    List.reverse_replicate,
    dropWhile_replicate_neg isSpaceChar '5' (by decide),
    List.reverse_replicate]

theorem collapseWsAux_replicate5 (n : Nat) :
    ∀ b, collapseWsAux b (List.replicate n '5') = List.replicate n '5' := by
  induction n with
  | zero => intro b; rfl
  | succ n ih => intro b; simp [List.replicate_succ, collapseWsAux, isSpaceChar, ih]

theorem splitWsAux_replicate5 (n : Nat) :
    ∀ acc, acc ≠ [] →
      splitWsAux (List.replicate n '5') acc = [acc.reverse ++ List.replicate n '5'] := by
  induction n with
  | zero =>
    intro acc hacc
    simp [splitWsAux, List.isEmpty_iff, hacc]
  | succ n ih =>
    intro acc hacc
    rw [List.replicate_succ]
    show splitWsAux ('5' :: List.replicate n '5') acc = _
    rw [splitWsAux]
    rw [if_neg (by decide)]
    rw [ih ('5' :: acc) (by simp)]
    simp [List.replicate_succ]

theorem pySplitWs_replicate5 (n : Nat) :
    pySplitWs (List.replicate (n + 1) '5') = [List.replicate (n + 1) '5'] := by
  unfold pySplitWs
  rw [List.replicate_succ]
  show splitWsAux ('5' :: List.replicate n '5') [] = _
  rw [splitWsAux]
  rw [if_neg (by decide)]
  rw [splitWsAux_replicate5 n ['5'] (by simp)]
  simp [List.replicate_succ]

theorem preserveCaseWord_replicate5 (n : Nat) :
    preserveCaseWord (List.replicate (n + 1) '5') = List.replicate (n + 1) '5' := by
  unfold preserveCaseWord
  have hdigit : (List.replicate (n + 1) '5').any Char.isDigit = true := by
    simp [List.replicate_succ]
  rw [hdigit, Bool.or_true, if_pos rfl]

theorem joinSp_singleton (w : PyStr) : joinSp [w] = w := by
  simp [joinSp, List.intercalate]

theorem preprocess_replicate5 (n : Nat) :
    preprocess_clinical_text (List.replicate (n + 1) '5') = List.replicate (n + 1) '5' := by
  simp only [preprocess_clinical_text, collapseWs]
  rw [filter_replicate_pos sanitizeKeep '5' (by decide),
    pyStrip_replicate5, collapseWsAux_replicate5, pySplitWs_replicate5,
    List.map_singleton, preserveCaseWord_replicate5, joinSp_singleton]

theorem ciPrefixEq_replicate5 (a : Char) (tl : PyStr) (h : a.toLower ≠ '5')
    (n : Nat) : ciPrefixEq (a :: tl) (List.replicate n '5') = false := by
  unfold ciPrefixEq
  refine beq_eq_false_iff_ne.mpr ?_
  intro heq
  have hh := congrArg List.head? heq
  cases n with
  | zero => simp at hh
  | succ n =>
    rw [List.replicate_succ] at hh
    simp [List.take_succ_cons] at hh
    exact h hh.symm

theorem substWordAux_replicate5 (a : Char) (tl full : PyStr) (h : a.toLower ≠ '5') :
    ∀ fuel prev n, substWordAux (a :: tl) full fuel prev (List.replicate n '5')
      = List.replicate n '5' := by
  intro fuel
  induction fuel with
  | zero => intro prev n; rfl
  | succ fuel ih =>
    intro prev n
    cases n with
    | zero => rfl
    | succ n =>
      have hci : ciPrefixEq (a :: tl) ('5' :: List.replicate n '5') = false := by
        rw [← List.replicate_succ]
        exact ciPrefixEq_replicate5 a tl h (n + 1)
      rw [List.replicate_succ]
      simp [substWordAux, hci, ih]

theorem abbrev_fold_replicate5 (dict : List (String × String))
    (hdict : ∀ kv ∈ dict,
      (kv.1.toList.head?.any fun a => !(a.toLower == '5')) = true) :
    ∀ n, dict.foldl (fun acc kv => substWord kv.1.toList kv.2.toList acc)
        (List.replicate n '5') = List.replicate n '5' := by
  induction dict with
  | nil => intro n; rfl
  | cons kv rest ih =>
    intro n
    rw [List.foldl_cons]
    have h1 := hdict kv (by simp)
    have hrw : substWord kv.1.toList kv.2.toList (List.replicate n '5')
        = List.replicate n '5' := by
      rcases hk : kv.1.toList with _ | ⟨a, tl⟩
      · rw [hk] at h1
        simp [Option.any] at h1
      · rw [hk] at h1
        simp only [List.head?_cons, Option.any_some] at h1
        unfold substWord
        refine substWordAux_replicate5 a tl kv.2.toList ?_ _ none n
        intro hcontra
        rw [hcontra] at h1
        simp at h1
    rw [hrw]
    exact ih (fun kv2 hkv2 => hdict kv2 (List.mem_cons_of_mem _ hkv2)) n

theorem dropWhile_isDigit_replicate5 (n : Nat) :
    (List.replicate n '5').dropWhile Char.isDigit = [] := by
  induction n with
  | zero => rfl
  | succ n ih => simp [List.replicate_succ, List.dropWhile_cons, ih]

theorem substUnitAux_replicate5 (u1 u2 : Char) (repl : PyStr) :
    ∀ fuel n, substUnitAux u1 u2 repl fuel (List.replicate n '5')
      = List.replicate n '5' := by
  intro fuel
  induction fuel with
  | zero => intro n; rfl
  | succ fuel ih =>
    intro n
    cases n with
    | zero => rfl
    | succ n =>
      have hdrop : (('5' : Char) :: List.replicate n '5').dropWhile Char.isDigit
          = [] := by
        rw [← List.replicate_succ]
        exact dropWhile_isDigit_replicate5 (n + 1)
      rw [List.replicate_succ]
      simp [substUnitAux, hdrop, ih]

theorem splitNlAux_replicate5 (n : Nat) :
    ∀ acc, splitNlAux (List.replicate n '5') acc
      = [acc.reverse ++ List.replicate n '5'] := by
  induction n with
  | zero => intro acc; simp [splitNlAux]
  | succ n ih =>
    intro acc
    rw [List.replicate_succ]
    show splitNlAux ('5' :: List.replicate n '5') acc = _
    rw [splitNlAux, if_neg (by decide)]
    rw [ih ('5' :: acc)]
    simp [List.replicate_succ]

theorem dropWhile_replicate5_append5 (n : Nat) :
    (List.replicate n '5' ++ ['5']).dropWhile isSpaceChar
      = List.replicate n '5' ++ ['5'] := by
  cases n with
  | zero => simp [List.dropWhile_cons, isSpaceChar]
  | succ n =>
    simp only [List.replicate_succ, List.cons_append, List.dropWhile_cons]
    rw [if_neg (by decide)]

theorem pyStrip_replicate5_newline (n : Nat) :
    pyStrip (List.replicate n '5' ++ ['\n']) = List.replicate n '5' := by
  cases n with
  | zero => rfl
  | succ n =>
    have key : (List.replicate (n + 1) '5' ++ ['\n'])
        = '5' :: (List.replicate n '5' ++ ['\n']) := by
      simp [List.replicate_succ]
    unfold pyStrip
    rw [key, List.dropWhile_cons, if_neg (by decide), List.reverse_cons,
      List.reverse_append, List.reverse_replicate]
    simp only [List.reverse_singleton, List.append_assoc, List.singleton_append]
    rw [List.cons_append, List.dropWhile_cons, if_pos (by decide),
      dropWhile_replicate5_append5, List.reverse_append, List.reverse_replicate,
      List.reverse_singleton, List.singleton_append, ← List.replicate_succ]

theorem normalize_replicate5 (n : Nat) :
    normalize_medical_terms (List.replicate (n + 1) '5')
      = List.replicate (n + 1) '5' := by
  simp only [normalize_medical_terms, substUnit]
  rw [abbrev_fold_replicate5 MEDICAL_ABBREVIATIONS (by decide) (n + 1),
    substUnitAux_replicate5, substUnitAux_replicate5, pySplitWs_replicate5,
    joinSp_singleton]

theorem segmentLoop_single_long (w : PyStr)
    (hw : ¬ (w.length + 1 ≤ MAX_SEGMENT_LENGTH)) :
    segmentLoop [w] [] = [[], pyStrip (w ++ ['\n'])] := by
  have hfit : ¬ (List.length ([] : PyStr) + w.length + 1 ≤ MAX_SEGMENT_LENGTH) := by
    simpa using hw
  rw [segmentLoop, if_neg hfit, segmentLoop]
  rw [if_neg (show ¬ ((w ++ ['\n']).isEmpty = true) by simp [List.isEmpty_iff])]
  rfl

/-- C8 (counterexample): an input of 8200 digits — one single line, since the
whitespace normalization removes every newline — is segmented into an empty
first chunk followed by one chunk of 8200 characters, which exceeds
`MAX_SEGMENT_LENGTH = 8192`; the claimed bound fails. -/
theorem segmentation_bound_counterexample :
    (process_document (List.replicate 8200 '5') none).toOption.map
      ProcessedDoc.segments = some [[], List.replicate 8200 '5']
    ∧ MAX_SEGMENT_LENGTH < (List.replicate 8200 '5').length := by
  constructor
  · have h8200 : (8200 : Nat) = 8199 + 1 := by norm_num
    have hne : (List.replicate 8200 '5').isEmpty = false := by
      rw [h8200, List.replicate_succ]
      rfl
    have hpre : preprocess_clinical_text (List.replicate 8200 '5')
        = List.replicate 8200 '5' := by
      rw [h8200]; exact preprocess_replicate5 8199
    have hnorm : normalize_medical_terms (List.replicate 8200 '5')
        = List.replicate 8200 '5' := by
      rw [h8200]; exact normalize_replicate5 8199
    have hsplit : splitNl (List.replicate 8200 '5') = [List.replicate 8200 '5'] := by
      unfold splitNl
      rw [splitNlAux_replicate5]
      rfl
    have hlen : (List.replicate 8200 '5').length = 8200 := List.length_replicate ..
    have hseg : segmentLoop [List.replicate 8200 '5'] []
        = [[], List.replicate 8200 '5'] := by
      rw [segmentLoop_single_long _ (by rw [hlen]; decide),
        pyStrip_replicate5_newline]
    simp only [process_document, hne, Bool.false_eq_true, if_false,
      hpre, hnorm, hsplit, hseg]
    rfl
  · rw [List.length_replicate]
    decide

/-! ### Clinical-model preprocessing and PHI redaction
(`ai-service/src/models/clinical_model.py`) -/

/-- The three PHI patterns of the clinical model's `preprocess_clinical_text`. -/
inductive PhiPattern where
  | ssn
  | phone
  | email
deriving DecidableEq

/-- The regex source text of each pattern, recorded verbatim in a redaction's
`type` field. -/
def patternSource : PhiPattern → String
  | .ssn => "\\b\\d\x7b3\x7d-\\d\x7b2\x7d-\\d\x7b4\x7d\\b"
  | .phone => "\\b\\d\x7b10\x7d\\b"
  | .email => "\\b[A-Za-z0-9._%+-]+@[A-Za-z0-9.-]+\\.[A-Z|a-z]\x7b2,\x7d\\b"

/-- The character class `[A-Za-z0-9._%+-]` (email local part). -/
def localClassChar (c : Char) : Bool :=
  c.isAlpha || c.isDigit || c == '.' || c == '_' || c == '%' || c == '+' || c == '-'

/-- The character class `[A-Za-z0-9.-]` (email domain part). -/
def domainClassChar (c : Char) : Bool :=
  c.isAlpha || c.isDigit || c == '.' || c == '-'

/-- The character class `[A-Z|a-z]` (email top level; the literal `|` is part
of the class in the source pattern). -/
def tldClassChar (c : Char) : Bool :=
  ('A' ≤ c && c ≤ 'Z') || c == '|' || ('a' ≤ c && c ≤ 'z')

/-- Whether position `i` of `cs` holds a word character (out of range counts
as non-word, as at the ends of a string). -/
def wordAt (cs : PyStr) (i : Nat) : Bool :=
  match cs.get? i with
  | some c => isWordChar c
  | none => false

/-- The regex `\b` assertion at position `i`: exactly one of the position's
two sides is a word character. -/
def boundaryAt (cs : PyStr) (i : Nat) : Bool :=
  (if i = 0 then false else wordAt cs (i - 1)) != wordAt cs i

/-- Whether position `i` holds a `\d` character. -/
def digitAt (cs : PyStr) (i : Nat) : Bool :=
  (cs.get? i).any Char.isDigit

/-- Whether position `i` holds exactly the character `c`. -/
def charAt (cs : PyStr) (i : Nat) (c : Char) : Bool :=
  cs.get? i == some c

/-- Length of the maximal run of class-`p` characters starting at `i`. -/
def runLen (p : Char → Bool) (cs : PyStr) (i : Nat) : Nat :=
  ((cs.drop i).takeWhile p).length

/-- Match of `\b\d{3}-\d{2}-\d{4}\b` starting at position `i`; returns the
position one past the match. -/
def ssnMatchAt (cs : PyStr) (i : Nat) : Option Nat :=
  if boundaryAt cs i && digitAt cs i && digitAt cs (i + 1) && digitAt cs (i + 2)
      && charAt cs (i + 3) '-' && digitAt cs (i + 4) && digitAt cs (i + 5)
      && charAt cs (i + 6) '-' && digitAt cs (i + 7) && digitAt cs (i + 8)
      && digitAt cs (i + 9) && digitAt cs (i + 10) && boundaryAt cs (i + 11) then
    some (i + 11)
  else none

/-- Match of `\b\d{10}\b` starting at position `i`. -/
def phoneMatchAt (cs : PyStr) (i : Nat) : Option Nat :=
  if boundaryAt cs i && (List.range 10).all (fun k => digitAt cs (i + k))
      && boundaryAt cs (i + 10) then
    some (i + 10)
  else none

/-- Backtracking over the greedy `[A-Z|a-z]{2,}` repetition: try the longest
count first, require at least two characters and a trailing `\b`. `p` is the
position after the dot; the argument counts down from the run length. -/
def tldTry (cs : PyStr) (p : Nat) : Nat → Option Nat
  | 0 => none
  | k + 1 =>
    if 2 ≤ k + 1 && boundaryAt cs (p + (k + 1)) then some (p + (k + 1))
    else tldTry cs p k

/-- Backtracking over the greedy `[A-Za-z0-9.-]+` repetition: give characters
back one at a time (longest split first), requiring the literal `\.` and then
the top-level part. `k` is the position where the domain run starts. -/
def emailTailTry (cs : PyStr) (k : Nat) : Nat → Option Nat
  | 0 => none
  | l + 1 =>
    (if charAt cs (k + (l + 1)) '.' then
      tldTry cs (k + (l + 1) + 1) (runLen tldClassChar cs (k + (l + 1) + 1))
    else none)
    <|> emailTailTry cs k l

/-- Match of `\b[A-Za-z0-9._%+-]+@[A-Za-z0-9._-]+\.[A-Z|a-z]{2,}\b` starting
at `i`. The local-part class excludes `@`, so its greedy run never
backtracks; the domain part and the top-level part backtrack as the engine
does. -/
def emailMatchAt (cs : PyStr) (i : Nat) : Option Nat :=
  if boundaryAt cs i then
    let r1 := runLen localClassChar cs i
    if r1 == 0 then none
    else if charAt cs (i + r1) '@' then
      emailTailTry cs (i + r1 + 1) (runLen domainClassChar cs (i + r1 + 1))
    else none
  else none

/-- Dispatch a single-position match attempt for one pattern. -/
def matchAt : PhiPattern → PyStr → Nat → Option Nat
  | .ssn, cs, i => ssnMatchAt cs i
  | .phone, cs, i => phoneMatchAt cs i
  | .email, cs, i => emailMatchAt cs i

/-- Scanning loop of `re.finditer`: try each position left to right, and
resume after the end of a match. Every match of these patterns is nonempty,
so `max e (i + 1)` equals the match end `e`; the fuel starts one above the
string length and every step advances the position by at least one. -/
def finditerAux (p : PhiPattern) (cs : PyStr) : Nat → Nat → List (Nat × Nat)
  | 0, _ => []
  | fuel + 1, i =>
    if i < cs.length then
      match matchAt p cs i with
      | some e => (i, e) :: finditerAux p cs fuel (max e (i + 1))
      | none => finditerAux p cs fuel (i + 1)
    else []

/-- All non-overlapping matches of a pattern, in order. -/
def finditer (p : PhiPattern) (cs : PyStr) : List (Nat × Nat) :=
  finditerAux p cs (cs.length + 1) 0

/-- One recorded redaction (`phi_info["locations"]` entry). `stop` embeds the
dict key `end` (a reserved word here) and `patType` embeds the key `type`. -/
structure PhiLocation where
  start : Nat
  stop : Nat
  patType : String
deriving DecidableEq

/-- The `phi_info` accumulator. -/
structure PhiInfo where
  detected : Bool
  locations : List PhiLocation
deriving DecidableEq

/-- One pattern's redaction pass: `re.finditer` is called once on the text as
it stands at the start of the pass, and each match is then replaced in the
evolving text using the offsets `match.start()`/`match.end()` of that
original snapshot — exactly the source's
`processed_text = processed_text[:match.start()] + '[REDACTED]' + processed_text[match.end():]`. -/
def redactPattern (acc : PyStr × PhiInfo) (p : PhiPattern) : PyStr × PhiInfo :=
  (finditer p acc.1).foldl
    (fun st m =>
      (st.1.take m.1 ++ "[REDACTED]".toList ++ st.1.drop m.2,
        { detected := true,
          locations := st.2.locations ++ [⟨m.1, m.2, patternSource p⟩] }))
    acc

namespace ClinicalModel

/-- Embedding of the clinical model's `preprocess_clinical_text`: strip NUL
characters, normalize whitespace with `' '.join(text.split())`, then run the
three PHI patterns in order. -/
def preprocess_clinical_text (text : PyStr) (detect_phi : Bool) :
    PyStr × PhiInfo :=
  let no_nulls := text.filter (fun c => !(c == '\x00'))
  let ws_normalized := joinSp (pySplitWs no_nulls)
  if detect_phi then
    [PhiPattern.ssn, PhiPattern.phone, PhiPattern.email].foldl redactPattern
      (ws_normalized, { detected := false, locations := [] })
  else
    (ws_normalized, { detected := false, locations := [] })

end ClinicalModel

/-- C7: evaluating the redaction path shows the slip. A single SSN-shaped
match is replaced in place by `[REDACTED]` with its span and pattern class
(not its value) recorded. With two SSN-shaped matches, however, the second
replacement applies the snapshot offsets to the already-shortened text
(`[REDACTED]` has 10 characters, the match 11), so the output keeps the first
digit of the second SSN — `"1[REDACTED]"` — instead of replacing the matched
span; the recorded spans still refer to the pre-redaction text. -/
theorem phi_redaction_offset_bug :
    (ClinicalModel.preprocess_clinical_text "SSN 123-45-6789".toList true).1
      = "SSN [REDACTED]".toList
    ∧ ((ClinicalModel.preprocess_clinical_text "SSN 123-45-6789".toList
        true).2.locations.map (fun l => (l.start, l.stop, l.patType)))
      = [(4, 15, "\\b\\d\x7b3\x7d-\\d\x7b2\x7d-\\d\x7b4\x7d\\b")]
    ∧ (ClinicalModel.preprocess_clinical_text
        "123-45-6789 and 123-45-6780".toList true).1
      = "[REDACTED] and 1[REDACTED]".toList
    ∧ ((ClinicalModel.preprocess_clinical_text
        "123-45-6789 and 123-45-6780".toList true).2.locations.map
        (fun l => (l.start, l.stop)))
      = [(0, 11), (16, 27)] := by
  refine ⟨?_, ?_, ?_, ?_⟩ <;> decide

/-- Fallback value used only to give total extractors for concrete runs. -/
def fallbackProcessedDoc : ProcessedDoc :=
  { processed_text := [], segments := [], entities := [],
    segment_count := 0, total_length := 0, validation_status := "" }

/-- The concrete processed form of the two-character document "hi". -/
def pdHi : ProcessedDoc :=
  match process_document "hi".toList none with
  | .ok pd => pd
  | .error _ => fallbackProcessedDoc

/-- Witness for C8 (amended): the amended bound evaluated on the concrete
document "hi". -/
theorem segmentation_bound_amended_witness :
    pdHi.segments ≠ []
    ∧ ∀ seg ∈ pdHi.segments,
        seg.length ≤ MAX_SEGMENT_LENGTH
        ∨ ∃ l ∈ splitNl pdHi.processed_text, seg = pyStrip (l ++ ['\n']) :=
  segmentation_bound_amended "hi".toList none pdHi (by decide)

/-! ### Analysis orchestrator
(`ai-service/src/services/document_analyzer.py`)

The two analyzer clients call external model services, so they are embedded as
oracle functions handed to the orchestrator; the orchestrator's own control
flow — security validation, cache, fan-out, merge, scoring, cache-admission —
is embedded from the source. The two `Counter` metrics that matter to the
claims (analysis requests and per-client invocations) are carried in the
state. -/

/-- Security context dict; the validator probes the three required keys. -/
structure SecurityContext where
  user_id : Option String
  access_level : Option String
  session_id : Option String
deriving DecidableEq

/-- Embedding of `DocumentAnalyzer._validate_security_context`: a falsy
(absent) context fails, otherwise all three required fields must be present. -/
def validate_security_context (security_context : Option SecurityContext) : Bool :=
  match security_context with
  | none => false
  | some c => c.user_id.isSome && c.access_level.isSome && c.session_id.isSome

/-- Result dict of `GPTService.analyze_document`, as read by the orchestrator
through `.get` accesses. -/
structure GptResult where
  confidence : Option ℚ
  entities : Option (List (String × List String))
  analysis : Option (List (String × String))
deriving DecidableEq

/-- Result dict of `ClinicalModel.process_document_async`, as read by the
orchestrator through `.get` accesses. -/
structure ClinicalResult where
  confidence : Option ℚ
  entities : Option (List (String × List String))
  structured_data : Option (List (String × String))
deriving DecidableEq

/-- Failures of an analyzer client call. -/
inductive AnalyzerError where
  | timeout
  | apiError (message : String)
deriving DecidableEq

/-- Failures of `analyze_document`. -/
inductive AnalyzeError where
  | invalidSecurityContext
  | processing (e : ProcessingError)
  | analyzer (e : AnalyzerError)
deriving DecidableEq

/-- Python `{**a, **b}` on string-keyed dicts embedded as association lists:
the keys of `a` first (with `b`'s value where `b` also has the key), then the
keys only `b` has, in order. -/
def pyDictMerge {V : Type} (a b : List (String × V)) : List (String × V) :=
  a.map (fun kv => (kv.1, (b.lookup kv.1).getD kv.2))
    ++ b.filter (fun kv => (a.lookup kv.1).isNone)

/-- Shape of `_merge_analysis_results`' return value. -/
structure MergedResults where
  entities : List (String × List String)
  clinical_findings : List (String × String)
  structured_data : List (String × String)
  document_metadata : List (String × String)
deriving DecidableEq

/-- Embedding of `DocumentAnalyzer._merge_analysis_results`. The processed
document carries no `metadata` key (its metrics live under `metrics`), so
`processed_doc.get("metadata", {})` always yields the empty dict. -/
def merge_analysis_results (gpt_results : GptResult)
    (clinical_results : ClinicalResult) (_processed_doc : ProcessedDoc) :
    MergedResults :=
  { entities := pyDictMerge (gpt_results.entities.getD [])
      (clinical_results.entities.getD [])
    clinical_findings := gpt_results.analysis.getD []
    structured_data := clinical_results.structured_data.getD []
    document_metadata := [] }

/-- The `confidence_scores` record of an analysis result. -/
structure ConfidenceScores where
  overall : ℚ
  gpt_confidence : ℚ
  clinical_confidence : ℚ
  entity_confidence : List (String × ℚ)
deriving DecidableEq

/-- Embedding of `DocumentAnalyzer._calculate_confidence_scores`. The merged
results carry no `confidence_scores` key, so the per-entity comprehension
ranges over the empty dict. -/
def calculate_confidence_scores (_combined_results : MergedResults)
    (gpt_results : GptResult) (clinical_results : ClinicalResult) :
    ConfidenceScores :=
  { overall := min (gpt_results.confidence.getD 0)
      (clinical_results.confidence.getD 0)
    gpt_confidence := gpt_results.confidence.getD 0
    clinical_confidence := clinical_results.confidence.getD 0
    entity_confidence := [] }

/-- The `processing_metrics` block; the elapsed time of a call modelled at a
single instant is `0`. -/
structure ProcessingMetrics where
  processing_time : ℚ
  gpt_confidence : ℚ
  clinical_confidence : ℚ
deriving DecidableEq

/-- The `audit_trail` block attached to an analysis result. -/
structure AuditTrailRef where
  timestamp : Nat
  security_context : Option SecurityContext
  processing_parameters : Option Params
deriving DecidableEq

/-- The full return value of `analyze_document`. -/
structure AnalysisResult where
  analysis_id : String
  results : MergedResults
  confidence_scores : ConfidenceScores
  processing_metrics : ProcessingMetrics
  audit_trail : AuditTrailRef
deriving DecidableEq

/-- The `TTLCache(maxsize, ttl)` configuration. -/
structure CacheConfig where
  maxsize : Nat := 1000
  ttl : Nat := 3600
deriving DecidableEq

/-- The cache key is derived from the document text, the parameters and the
security context (the source hashes their formatted concatenation; hash
collisions are not modelled). -/
abbrev CacheKey := PyStr × Option Params × Option SecurityContext

/-- One cache slot with its insertion time. -/
structure CacheEntry where
  key : CacheKey
  time : Nat
  result : AnalysisResult
deriving DecidableEq

/-- `TTLCache` lookup: a present entry counts only while its age is below the
TTL. -/
def cacheLookup (cfg : CacheConfig) (cache : List CacheEntry) (key : CacheKey)
    (now : Nat) : Option AnalysisResult :=
  match cache.find? (fun e => e.key == key) with
  | some e => if now < e.time + cfg.ttl then some e.result else none
  | none => none

/-- `TTLCache` insertion: replace any entry for the same key, append the new
entry, and evict oldest entries beyond the capacity. -/
def cacheInsert (cfg : CacheConfig) (cache : List CacheEntry) (key : CacheKey)
    (now : Nat) (result : AnalysisResult) : List CacheEntry :=
  let pruned := cache.filter (fun e => !(e.key == key))
  let appended := pruned ++ [{ key := key, time := now, result := result }]
  if cfg.maxsize < appended.length then
    appended.drop (appended.length - cfg.maxsize)
  else appended

/-- Orchestrator state: the document cache and the counters the claims rely
on (total requests and per-client analyzer invocations). -/
structure AnState where
  cache : List CacheEntry
  requests : Nat
  gptCalls : Nat
  clinCalls : Nat
deriving DecidableEq

/-- The GPT analyzer client as an oracle over the processed text and the
analysis options. -/
abbrev GptOracle := PyStr → Option Params → Except AnalyzerError GptResult

/-- The clinical-model client as an oracle over the processed text and the
processing config. -/
abbrev ClinicalOracle := PyStr → Option Params → Except AnalyzerError ClinicalResult

/-- Embedding of `DocumentAnalyzer.analyze_document`: count the request,
validate the security context, consult the TTL cache, otherwise normalize the
text, fan out to both analyzer clients (an error from either fails the whole
call), merge, score, and cache the result exactly when the overall confidence
reaches the `0.85` admission threshold. -/
def analyze_document (gpt : GptOracle) (clinical : ClinicalOracle)
    (cfg : CacheConfig) (st : AnState) (document_text : PyStr)
    (analysis_parameters : Option Params)
    (security_context : Option SecurityContext) (now : Nat) :
    AnState × Except AnalyzeError AnalysisResult :=
  let st := { st with requests := st.requests + 1 }
  if !(validate_security_context security_context) then
    (st, .error .invalidSecurityContext)
  else
    let cache_key : CacheKey := (document_text, analysis_parameters, security_context)
    match cacheLookup cfg st.cache cache_key now with
    | some cached => (st, .ok cached)
    | none =>
      match process_document document_text analysis_parameters with
      | .error e => (st, .error (.processing e))
      | .ok processed_doc =>
        let st := { st with gptCalls := st.gptCalls + 1, clinCalls := st.clinCalls + 1 }
        match gpt processed_doc.processed_text analysis_parameters,
            clinical processed_doc.processed_text analysis_parameters with
        | .ok gpt_results, .ok clinical_results =>
          let combined_results :=
            merge_analysis_results gpt_results clinical_results processed_doc
          let confidence_scores :=
            calculate_confidence_scores combined_results gpt_results clinical_results
          let analysis_result : AnalysisResult :=
            { analysis_id := "DOC_" ++ toString now
              results := combined_results
              confidence_scores := confidence_scores
              processing_metrics :=
                { processing_time := 0
                  gpt_confidence := gpt_results.confidence.getD 0
                  clinical_confidence := clinical_results.confidence.getD 0 }
              audit_trail :=
                { timestamp := now
                  security_context := security_context
                  processing_parameters := analysis_parameters } }
          let st :=
            if mkRat 85 100 ≤ confidence_scores.overall then
              { st with cache := cacheInsert cfg st.cache cache_key now analysis_result }
            else st
          (st, .ok analysis_result)
        | .error e, _ => (st, .error (.analyzer e))
        | .ok _, .error e => (st, .error (.analyzer e))

/-! ### Entity-merge theorems (claim C5) -/

/-- Lookup in the first (overridden) section of a Python dict merge. -/
theorem lookup_map_override {V : Type} (a b : List (String × V)) (k : String) :
    (a.map (fun kv => (kv.1, (b.lookup kv.1).getD kv.2))).lookup k
      = (a.lookup k).map (fun v => (b.lookup k).getD v) := by
  induction a with
  | nil => rfl
  | cons kv a ih =>
    simp only [List.map_cons, List.lookup]
    cases hbeq : k == kv.1 with
    | true =>
      have hk : k = kv.1 := by simpa using hbeq
      subst hk
      simp
    | false => simpa using ih

/-- Lookup in the second (new-keys) section of a Python dict merge. -/
theorem lookup_filter_new {V : Type} (a b : List (String × V)) (k : String) :
    (b.filter (fun kv => (a.lookup kv.1).isNone)).lookup k
      = if (a.lookup k).isNone then b.lookup k else none := by
  induction b with
  | nil => simp
  | cons kv b ih =>
    rw [List.filter_cons]
    cases hbeq : k == kv.1 with
    | true =>
      have hk : k = kv.1 := by simpa using hbeq
      subst hk
      cases hkeep : (kv.1 :: [] |> fun _ => (a.lookup kv.1).isNone) with
      | true =>
        simp only at hkeep
        simp [List.lookup, hkeep]
      | false =>
        simp only at hkeep
        simp [List.lookup, hkeep, ih]
    | false =>
      cases hkeep : (a.lookup kv.1).isNone with
      | true =>
        rw [if_pos rfl]
        simp only [List.lookup, hbeq]
        exact ih
      | false =>
        rw [if_neg (by simp)]
        simp only [List.lookup, hbeq]
        exact ih

/-- Lookup distributes over list append, first list first. -/
theorem lookup_append {V : Type} (l1 l2 : List (String × V)) (k : String) :
    (l1 ++ l2).lookup k = (l1.lookup k).or (l2.lookup k) := by
  induction l1 with
  | nil => simp [List.lookup]
  | cons kv l1 ih =>
    simp only [List.cons_append, List.lookup]
    cases hbeq : k == kv.1 with
    | true => simp
    | false => simpa using ih

/-- The key-wise content of a Python dict merge: the later dict wins on
shared keys, and keys private to either side survive. -/
theorem lookup_pyDictMerge {V : Type} (a b : List (String × V)) (k : String) :
    (pyDictMerge a b).lookup k = (b.lookup k).or (a.lookup k) := by
  unfold pyDictMerge
  rw [lookup_append, lookup_map_override, lookup_filter_new]
  cases ha : a.lookup k with
  | none =>
    simp
  | some v =>
    cases hb : b.lookup k <;> simp

/-- C5 (amended): the merged entity mapping is the Python dict merge
`{**gpt_entities, **clinical_entities}` — for every category, the clinical
(later) source's entry overrides the GPT (earlier) source's entry when both
are present, and either side's entry survives when the other side lacks the
category. -/
theorem entity_merge_later_source_wins (gpt_results : GptResult)
    (clinical_results : ClinicalResult) (pd : ProcessedDoc) (category : String) :
    ((merge_analysis_results gpt_results clinical_results pd).entities.lookup
      category)
      = ((clinical_results.entities.getD []).lookup category).or
          ((gpt_results.entities.getD []).lookup category) :=
  lookup_pyDictMerge _ _ _

/-- C5 (counterexample): with `medications` present in both sources, the
merged mapping holds only the clinical source's findings — the GPT source's
finding for the shared category is overwritten, not united. -/
theorem entity_merge_counterexample :
    ((merge_analysis_results
        { confidence := some (mkRat 9 10),
          entities := some [("medications", ["aspirin"])],
          analysis := some [] }
        { confidence := some (mkRat 9 10),
          entities := some [("medications", ["ibuprofen"])],
          structured_data := some [] }
        fallbackProcessedDoc).entities.lookup "medications")
      = some ["ibuprofen"]
    ∧ ¬ ("aspirin" ∈ (["ibuprofen"] : List String)) := by
  refine ⟨?_, ?_⟩ <;> decide

/-! ### Confidence-combination theorem (claim C1) -/

/-- Cache entries whose overall score is the minimum of their two recorded
source scores (every entry the orchestrator itself inserts has this shape). -/
def cacheWellFormed (st : AnState) : Prop :=
  ∀ e ∈ st.cache,
    e.result.confidence_scores.overall
      = min e.result.confidence_scores.gpt_confidence
          e.result.confidence_scores.clinical_confidence

/-- A successful TTL-cache lookup returns the stored result of some entry. -/
theorem cacheLookup_mem (cfg : CacheConfig) (cache : List CacheEntry)
    (key : CacheKey) (now : Nat) (r : AnalysisResult)
    (h : cacheLookup cfg cache key now = some r) :
    ∃ e ∈ cache, e.result = r := by
  unfold cacheLookup at h
  split at h
  next e heq =>
    split at h
    · exact ⟨e, List.mem_of_find?_eq_some heq, by injection h⟩
    · cases h
  next heq => cases h

/-- C1: every analysis result returned by `analyze_document` — freshly
computed, or served from a cache whose entries are themselves well-formed —
has overall confidence equal to the minimum of the GPT and clinical source
confidences it records. -/
theorem overall_confidence_min (gpt : GptOracle) (clinical : ClinicalOracle)
    (cfg : CacheConfig) (st : AnState) (text : PyStr) (params : Option Params)
    (ctx : Option SecurityContext) (now : Nat) (st1 : AnState)
    (r : AnalysisResult) (hwf : cacheWellFormed st)
    (h : analyze_document gpt clinical cfg st text params ctx now = (st1, .ok r)) :
    r.confidence_scores.overall
      = min r.confidence_scores.gpt_confidence
          r.confidence_scores.clinical_confidence := by
  cases hval : validate_security_context ctx with
  | false => simp [analyze_document, hval] at h
  | true =>
    cases hfind : cacheLookup cfg st.cache (text, params, ctx) now with
    | some cached =>
      obtain ⟨e, hmem, hres⟩ := cacheLookup_mem _ _ _ _ _ hfind
      simp [analyze_document, hval, hfind] at h
      have hw := hwf e hmem
      rw [hres, h.2] at hw
      exact hw
    | none =>
      cases hpd : process_document text params with
      | error e => simp [analyze_document, hval, hfind, hpd] at h
      | ok pd =>
        cases hg : gpt pd.processed_text params with
        | error eg => simp [analyze_document, hval, hfind, hpd, hg] at h
        | ok g =>
          cases hc : clinical pd.processed_text params with
          | error ec => simp [analyze_document, hval, hfind, hpd, hg, hc] at h
          | ok c =>
            simp [analyze_document, hval, hfind, hpd, hg, hc] at h
            rw [← h.2]
            rfl

/-- A deterministic GPT oracle used in concrete runs. -/
def gptOracleW : GptOracle := fun _ _ =>
  .ok { confidence := some (mkRat 9 10),
        entities := some [("diagnoses", ["migraine"])],
        analysis := some [("summary", "stable")] }

/-- A deterministic clinical oracle used in concrete runs. -/
def clinOracleW : ClinicalOracle := fun _ _ =>
  .ok { confidence := some (mkRat 9 10),
        entities := some [("medications", ["aimovig"])],
        structured_data := some [] }

/-- The default cache configuration (`maxsize=1000`, `ttl=3600`). -/
def cfgW : CacheConfig := {}

/-- The initial orchestrator state: empty cache, zeroed counters. -/
def st0 : AnState := { cache := [], requests := 0, gptCalls := 0, clinCalls := 0 }

/-- A complete security context. -/
def ctxW : Option SecurityContext :=
  some { user_id := some "u1", access_level := some "provider",
         session_id := some "s1" }

/-- Concrete analysis parameters. -/
def paramsW : Option Params := some [("extract_entities", "true")]

/-- The concrete first run of the orchestrator on the document "hello". -/
def anW : AnState × Except AnalyzeError AnalysisResult :=
  analyze_document gptOracleW clinOracleW cfgW st0 "hello".toList paramsW ctxW 3

/-- Fallback result used only to give total extractors for concrete runs. -/
def fallbackResult : AnalysisResult :=
  { analysis_id := ""
    results := { entities := [], clinical_findings := [],
                 structured_data := [], document_metadata := [] }
    confidence_scores := { overall := 0, gpt_confidence := 0,
                           clinical_confidence := 0, entity_confidence := [] }
    processing_metrics := { processing_time := 0, gpt_confidence := 0,
                            clinical_confidence := 0 }
    audit_trail := { timestamp := 0, security_context := none,
                     processing_parameters := none } }

/-- The result of the concrete first run. -/
def resW : AnalysisResult :=
  match anW.2 with
  | .ok r => r
  | .error _ => fallbackResult

/-- The state after the concrete first run. -/
def stW : AnState := anW.1

/-- Witness for C1: the confidence invariant evaluated on the concrete run. -/
theorem overall_confidence_min_witness :
    resW.confidence_scores.overall
      = min resW.confidence_scores.gpt_confidence
          resW.confidence_scores.clinical_confidence :=
  overall_confidence_min gptOracleW clinOracleW cfgW st0 "hello".toList paramsW
    ctxW 3 stW resW (by simp [cacheWellFormed, st0]) (by decide)

/-! ### Cache-policy theorems (claim C6) -/

/-- Dropping from the left part of an append. -/
theorem drop_append_of_le {α : Type} (l1 l2 : List α) (n : Nat)
    (h : n ≤ l1.length) : (l1 ++ l2).drop n = l1.drop n ++ l2 := by
  induction l1 generalizing n with
  | nil =>
    have : n = 0 := Nat.le_zero.mp h
    subst this
    simp
  | cons a l1 ih =>
    cases n with
    | zero => simp
    | succ n =>
      simp only [List.cons_append, List.drop_succ_cons]
      exact ih n (Nat.le_of_succ_le_succ h)

/-- A key-matching entry appended after key-free entries is what `find?`
returns. -/
theorem find?_key_append_last (key : CacheKey) (l : List CacheEntry)
    (entry : CacheEntry) (hkey : (entry.key == key) = true)
    (hl : ∀ e ∈ l, (e.key == key) = false) :
    (l ++ [entry]).find? (fun e => e.key == key) = some entry := by
  induction l with
  | nil => simp [List.find?, hkey]
  | cons e l ih =>
    have hpe : ¬ ((fun e => e.key == key) e = true) := by
      simp [hl e (by simp)]
    rw [List.cons_append,
      show List.find? (fun e => e.key == key) (e :: (l ++ [entry]))
          = List.find? (fun e => e.key == key) (l ++ [entry]) from
        List.find?_cons_of_neg _ hpe]
    exact ih (fun e2 he2 => hl e2 (by simp [he2]))

/-- Looking up a just-inserted entry within its TTL window returns its
result, for any positive capacity. -/
theorem cacheLookup_cacheInsert_self (cfg : CacheConfig)
    (cache : List CacheEntry) (key : CacheKey) (now now2 : Nat)
    (r : AnalysisResult) (hmax : 1 ≤ cfg.maxsize)
    (hfresh : now2 < now + cfg.ttl) :
    cacheLookup cfg (cacheInsert cfg cache key now r) key now2 = some r := by
  have hall : ∀ e ∈ cache.filter (fun e => !(e.key == key)),
      (e.key == key) = false := by
    intro e he
    have hmf := List.mem_filter.mp he
    simpa using hmf.2
  have hfind : ∀ l : List CacheEntry, (∀ e ∈ l, (e.key == key) = false) →
      cacheLookup cfg (l ++ [{ key := key, time := now, result := r }]) key now2
        = some r := by
    intro l hl
    unfold cacheLookup
    rw [find?_key_append_last key l _ (by simp) hl]
    simp [hfresh]
  simp only [cacheInsert]
  split
  · rename_i hover
    have hdle : (cache.filter (fun e : CacheEntry => !(e.key == key))
          ++ [({ key := key, time := now, result := r } : CacheEntry)]).length
        - cfg.maxsize ≤ (cache.filter (fun e : CacheEntry => !(e.key == key))).length := by
      simp only [List.length_append, List.length_cons, List.length_nil]
      omega
    rw [drop_append_of_le _ _ _ hdle]
    exact hfind _ (fun e he => hall e (List.drop_subset _ _ he))
  · exact hfind _ hall

/-- C6: after a cache-miss analysis completes, the result sits in the cache
exactly when its overall confidence reaches the `0.85` threshold; and when it
was cached, an identical second request inside the TTL window returns the
same result unchanged while only the request counter — not the analyzer
invocation counters — moves. -/
theorem cache_policy_and_idempotence (gpt : GptOracle)
    (clinical : ClinicalOracle) (cfg : CacheConfig) (st : AnState)
    (text : PyStr) (params : Option Params) (ctx : Option SecurityContext)
    (now1 now2 : Nat) (st1 : AnState) (r : AnalysisResult)
    (httl : 0 < cfg.ttl) (hmax : 1 ≤ cfg.maxsize)
    (hmiss : cacheLookup cfg st.cache (text, params, ctx) now1 = none)
    (h1 : analyze_document gpt clinical cfg st text params ctx now1
      = (st1, .ok r)) :
    (cacheLookup cfg st1.cache (text, params, ctx) now1 = some r
      ↔ mkRat 85 100 ≤ r.confidence_scores.overall)
    ∧ (mkRat 85 100 ≤ r.confidence_scores.overall → now2 < now1 + cfg.ttl →
        analyze_document gpt clinical cfg st1 text params ctx now2
          = ({ st1 with requests := st1.requests + 1 }, .ok r)) := by
  have hval : validate_security_context ctx = true := by
    cases hv : validate_security_context ctx with
    | true => rfl
    | false => simp [analyze_document, hv] at h1
  cases hpd : process_document text params with
  | error e => simp [analyze_document, hval, hmiss, hpd] at h1
  | ok pd =>
    cases hg : gpt pd.processed_text params with
    | error eg => simp [analyze_document, hval, hmiss, hpd, hg] at h1
    | ok g =>
      cases hc : clinical pd.processed_text params with
      | error ec => simp [analyze_document, hval, hmiss, hpd, hg, hc] at h1
      | ok c =>
        simp [analyze_document, hval, hmiss, hpd, hg, hc] at h1
        obtain ⟨hst, hr⟩ := h1
        subst hst
        subst hr
        by_cases hthr : mkRat 85 100
            ≤ (calculate_confidence_scores (merge_analysis_results g c pd) g c).overall
        · rw [if_pos hthr]
          constructor
          · constructor
            · intro _
              exact hthr
            · intro _
              exact cacheLookup_cacheInsert_self cfg st.cache _ now1 now1 _ hmax
                (by omega)
          · intro _ hfresh
            have hlook2 := cacheLookup_cacheInsert_self cfg st.cache
              (text, params, ctx) now1 now2
              { analysis_id := "DOC_" ++ toString now1
                results := merge_analysis_results g c pd
                confidence_scores := calculate_confidence_scores
                  (merge_analysis_results g c pd) g c
                processing_metrics :=
                  { processing_time := 0
                    gpt_confidence := g.confidence.getD 0
                    clinical_confidence := c.confidence.getD 0 }
                audit_trail :=
                  { timestamp := now1
                    security_context := ctx
                    processing_parameters := params } } hmax hfresh
            simp [analyze_document, hval, hlook2]
        · rw [if_neg hthr]
          exact ⟨⟨fun hlk => Option.noConfusion (hmiss.symm.trans hlk),
            fun hcontra => absurd hcontra hthr⟩,
            fun hcontra _ => absurd hcontra hthr⟩

/-- Witness for C6: the concrete high-confidence run is cached, and an
identical request at `t = 50` (well inside the TTL) returns the identical
result while moving only the request counter. -/
theorem cache_policy_and_idempotence_witness :
    analyze_document gptOracleW clinOracleW cfgW stW "hello".toList paramsW
      ctxW 50 = ({ stW with requests := stW.requests + 1 }, .ok resW) :=
  (cache_policy_and_idempotence gptOracleW clinOracleW cfgW st0 "hello".toList
    paramsW ctxW 3 50 stW resW (by decide) (by decide) (by decide)
    (by decide)).2 (by decide) (by decide)

/-! ### Streaming session (`DocumentAnalyzer.stream_analysis`) -/

/-- Events yielded by the streaming generator: per-chunk analysis events, or
the error event emitted by the `except` handler. -/
inductive StreamEvent where
  | chunk (session_id : String) (chunk_analysis : AnalysisResult)
      (progress : ℚ) (total_chunks : Nat) (processed_chunks : Nat)
      (timestamp : Nat)
  | errorEvent (session_id : String) (error : String) (timestamp : Nat)
deriving DecidableEq

/-- How a streaming run terminates abnormally: the unbound `session_id` in
the handler (validation failed before it was assigned), the `TypeError` from
unpacking absent parameters, or a re-raised analysis error. -/
inductive StreamError where
  | nameErrorSessionId
  | typeErrorParams
  | raised (e : AnalyzeError)
deriving DecidableEq

/-- The `str(e)` rendering carried by an error event. -/
def errMessage : AnalyzeError → String
  | .invalidSecurityContext => "Invalid security context"
  | .processing .emptyDocument => "Empty document text provided"
  | .analyzer .timeout => "Analyzer timeout"
  | .analyzer (.apiError m) => m

/-- The per-chunk loop of `stream_analysis`: run each chunk through the full
`analyze_document` path (threading the orchestrator state, so per-chunk
caching applies), yield one chunk event with the updated progress counters,
and on the first failure yield one error event and stop — the exception is
re-raised, so nothing follows it. After the last chunk the generator simply
ends: no terminal event is emitted on the success path. -/
def streamLoop (gpt : GptOracle) (clinical : ClinicalOracle)
    (cfg : CacheConfig) (analysis_parameters : Option Params)
    (security_context : Option SecurityContext) (session_id : String)
    (total_chunks : Nat) (now : Nat) :
    AnState → Nat → List PyStr → AnState × List StreamEvent × Option StreamError
  | st, _, [] => (st, [], none)
  | st, processed_count, chunk :: rest =>
    match analyze_document gpt clinical cfg st chunk analysis_parameters
        security_context now with
    | (st1, .ok chunk_result) =>
      let cnt := processed_count + 1
      let ev := StreamEvent.chunk session_id chunk_result
        ((cnt : ℚ) / (total_chunks : ℚ) * 100) total_chunks cnt now
      let res := streamLoop gpt clinical cfg analysis_parameters
        security_context session_id total_chunks now st1 cnt rest
      (res.1, ev :: res.2.1, res.2.2)
    | (st1, .error e) =>
      (st1, [StreamEvent.errorEvent session_id (errMessage e) now],
        some (.raised e))

/-- Embedding of `DocumentAnalyzer.stream_analysis` as the full event
sequence the generator produces, together with the exception (if any) it ends
with. When the security context is invalid, the `ValueError` raised inside
the `try` block reaches the handler before `session_id` has been assigned;
the handler's own event expression then fails with an unbound-name error, so
the generator yields nothing at all. When the parameters are absent,
`{"mode": "streaming", **analysis_parameters}` raises `TypeError` after
`session_id` is bound, so the handler does emit an error event before
re-raising. -/
def stream_analysis (gpt : GptOracle) (clinical : ClinicalOracle)
    (cfg : CacheConfig) (st : AnState) (document_text : PyStr)
    (analysis_parameters : Option Params)
    (security_context : Option SecurityContext) (now : Nat) :
    AnState × List StreamEvent × Option StreamError :=
  if !(validate_security_context security_context) then
    (st, [], some .nameErrorSessionId)
  else
    let session_id := "STREAM_" ++ toString now
    match analysis_parameters with
    | none =>
      (st, [.errorEvent session_id "argument of type NoneType is not a mapping" now],
        some .typeErrorParams)
    | some params =>
      match process_document document_text
          (some (("mode", "streaming") :: params)) with
      | .error e =>
        (st, [.errorEvent session_id (errMessage (.processing e)) now],
          some (.raised (.processing e)))
      | .ok processed_chunks =>
        streamLoop gpt clinical cfg analysis_parameters security_context
          session_id processed_chunks.segments.length now st 0
          processed_chunks.segments

/-- The `processed_chunks` counter of a chunk event (`none` for the error
event). -/
def eventCount? : StreamEvent → Option Nat
  | .chunk _ _ _ _ c _ => some c
  | .errorEvent _ _ _ => none

/-- The counters `s+1, s+2, ..., s+n` in order. -/
def countUp (s : Nat) : Nat → List Nat
  | 0 => []
  | n + 1 => (s + 1) :: countUp (s + 1) n

/-- The chunk loop emits chunk events with strictly increasing counters; it
either consumes every chunk with no trailing event, or stops at the first
failing chunk with exactly one trailing error event. -/
theorem streamLoop_events (gpt : GptOracle) (clinical : ClinicalOracle)
    (cfg : CacheConfig) (params : Option Params)
    (ctx : Option SecurityContext) (session : String) (total : Nat)
    (now : Nat) :
    ∀ (segs : List PyStr) (st : AnState) (cnt : Nat),
      ((streamLoop gpt clinical cfg params ctx session total now
          st cnt segs).2.2 = none
        ∧ (streamLoop gpt clinical cfg params ctx session total now
            st cnt segs).2.1.map eventCount?
          = (countUp cnt segs.length).map some)
      ∨ (∃ k, k < segs.length
          ∧ (streamLoop gpt clinical cfg params ctx session total now
              st cnt segs).2.2.isSome = true
          ∧ (streamLoop gpt clinical cfg params ctx session total now
              st cnt segs).2.1.map eventCount?
            = (countUp cnt k).map some ++ [none]) := by
  intro segs
  induction segs with
  | nil => intro st cnt; exact Or.inl ⟨rfl, rfl⟩
  | cons chunk rest ih =>
    intro st cnt
    rcases hra : analyze_document gpt clinical cfg st chunk params ctx now
      with ⟨st1, res⟩
    cases res with
    | ok r =>
      rcases ih st1 (cnt + 1) with ⟨h1, h2⟩ | ⟨k, hk, h1, h2⟩
      · refine Or.inl ⟨?_, ?_⟩ <;>
          simp [streamLoop, hra, eventCount?, countUp, h1, h2]
      · refine Or.inr ⟨k + 1, by simpa using hk, ?_, ?_⟩ <;>
          simp [streamLoop, hra, eventCount?, countUp, h1, h2]
    | error e =>
      refine Or.inr ⟨0, by simp, ?_, ?_⟩ <;>
        simp [streamLoop, hra, eventCount?, countUp]

/-- C3 (amended): for a valid streaming request whose document segments into
N chunks, the emitted sequence is exactly N chunk events whose
`processed_chunks` counters strictly increase `1..N`, with no terminal event
of any kind after them; if a chunk fails, the events are the k chunk events
of the completed chunks (`k < N`) followed by exactly one error event, and
nothing further. -/
theorem stream_event_sequence (gpt : GptOracle) (clinical : ClinicalOracle)
    (cfg : CacheConfig) (st : AnState) (text : PyStr) (params : Params)
    (ctx : Option SecurityContext) (now : Nat) (pd : ProcessedDoc)
    (hval : validate_security_context ctx = true)
    (hpd : process_document text (some (("mode", "streaming") :: params))
      = .ok pd) :
    ((stream_analysis gpt clinical cfg st text (some params) ctx now).2.2
        = none
      ∧ (stream_analysis gpt clinical cfg st text (some params) ctx
          now).2.1.map eventCount?
        = (countUp 0 pd.segments.length).map some)
    ∨ (∃ k, k < pd.segments.length
        ∧ (stream_analysis gpt clinical cfg st text (some params) ctx
            now).2.2.isSome = true
        ∧ (stream_analysis gpt clinical cfg st text (some params) ctx
            now).2.1.map eventCount?
          = (countUp 0 k).map some ++ [none]) := by
  have hunfold : stream_analysis gpt clinical cfg st text (some params) ctx now
      = streamLoop gpt clinical cfg (some params) ctx
          ("STREAM_" ++ toString now) pd.segments.length now st 0
          pd.segments := by
    simp [stream_analysis, hval, hpd]
  rw [hunfold]
  exact streamLoop_events gpt clinical cfg (some params) ctx
    ("STREAM_" ++ toString now) pd.segments.length now pd.segments st 0

/-- The concrete processed form of "hello" under the streaming options. -/
def pdStreamHello : ProcessedDoc :=
  match process_document "hello".toList
      (some (("mode", "streaming") :: [("extract_entities", "true")])) with
  | .ok pd => pd
  | .error _ => fallbackProcessedDoc

/-- Witness for C3 (amended): the amended event-sequence shape evaluated on
the concrete one-chunk streaming run. -/
theorem stream_event_sequence_witness :
    ((stream_analysis gptOracleW clinOracleW cfgW st0 "hello".toList
        (some [("extract_entities", "true")]) ctxW 3).2.2 = none
      ∧ (stream_analysis gptOracleW clinOracleW cfgW st0 "hello".toList
          (some [("extract_entities", "true")]) ctxW 3).2.1.map eventCount?
        = (countUp 0 pdStreamHello.segments.length).map some)
    ∨ (∃ k, k < pdStreamHello.segments.length
        ∧ (stream_analysis gptOracleW clinOracleW cfgW st0 "hello".toList
            (some [("extract_entities", "true")]) ctxW 3).2.2.isSome = true
        ∧ (stream_analysis gptOracleW clinOracleW cfgW st0 "hello".toList
            (some [("extract_entities", "true")]) ctxW 3).2.1.map eventCount?
          = (countUp 0 k).map some ++ [none]) :=
  stream_event_sequence gptOracleW clinOracleW cfgW st0 "hello".toList
    [("extract_entities", "true")] ctxW 3 pdStreamHello (by decide) (by decide)

/-- C3 (counterexample): a document that segments into exactly one chunk
produces exactly one event — the chunk event — and the generator then ends
with no exception and no terminal "completed" event, so the claimed
"N chunk events followed by exactly one terminal event" fails. -/
theorem stream_no_terminal_event_counterexample :
    (process_document "hello".toList
        (some (("mode", "streaming") :: [("extract_entities", "true")]))).toOption.map
      (fun pd => pd.segments.length) = some 1
    ∧ (stream_analysis gptOracleW clinOracleW cfgW st0 "hello".toList
        (some [("extract_entities", "true")]) ctxW 3).2.1.length = 1
    ∧ (stream_analysis gptOracleW clinOracleW cfgW st0 "hello".toList
        (some [("extract_entities", "true")]) ctxW 3).2.1.map eventCount?
      = [some 1]
    ∧ (stream_analysis gptOracleW clinOracleW cfgW st0 "hello".toList
        (some [("extract_entities", "true")]) ctxW 3).2.2 = none := by
  refine ⟨?_, ?_, ?_, ?_⟩ <;> decide

/-- C10: with a missing or incomplete security context, the streaming
generator yields no events at all — not even the terminal error event —
because the handler references the still-unassigned `session_id`; the call
escapes with an exception and the state untouched. -/
theorem stream_invalid_context_yields_nothing (gpt : GptOracle)
    (clinical : ClinicalOracle) (cfg : CacheConfig) (st : AnState)
    (text : PyStr) (params : Option Params) (ctx : Option SecurityContext)
    (now : Nat) (h : validate_security_context ctx = false) :
    stream_analysis gpt clinical cfg st text params ctx now
      = (st, [], some .nameErrorSessionId) := by
  simp [stream_analysis, h]

/-- Witness for C10: the concrete run with no security context at all. -/
theorem stream_invalid_context_yields_nothing_witness :
    stream_analysis gptOracleW clinOracleW cfgW st0 "hello".toList paramsW
      none 3 = (st0, [], some .nameErrorSessionId) :=
  stream_invalid_context_yields_nothing gptOracleW clinOracleW cfgW st0
    "hello".toList paramsW none 3 (by decide)
